import Mathlib

/-!
# Verification of the Update front-end pages and the sandbox admission contract

Shallow embedding of the client-side state handlers in `src/app/page.tsx`
(the CS-instructor chat page), `src/app/compare/page.tsx` and the calendar
page, together with a spec-level model of the Restricted Execution
Sandbox's static admission check (whose backend source is not part of
`src/`; only the backend README documents it).

React `useState` state is modelled as explicit record-passing: each event
handler becomes a pure function from the page state (plus the outcome of
any awaited HTTP round-trip, supplied as a parameter) to the next page
state.  `setX(f)` updater calls are applied in program order, which is
their observable semantics for a single handler invocation.
-/

/-- Role of a chat message, from the `Message` interface in
`src/app/page.tsx` (`role: 'user' | 'assistant'`). -/
inductive Role where
  | user
  | assistant
deriving DecidableEq, Repr

/-- One entry of the `intermediateSteps` array rendered by the chat page
(`step.action`, `step.action_input`, `step.observation`). -/
structure AgentStep where
  action : String
  action_input : String
  observation : String
deriving DecidableEq, Repr

/-- The `Message` interface of `src/app/page.tsx`: id, content, role,
timestamp (`Date` modelled as a natural number of milliseconds), and the
optional tool-step trace. -/
structure Message where
  id : String
  content : String
  role : Role
  timestamp : Nat
  intermediateSteps : Option (List AgentStep)
deriving DecidableEq, Repr

/-- Upload status of one file, from the `FileUpload` interface
(`'uploading' | 'completed' | 'error'`). -/
inductive UploadStatus where
  | uploading
  | completed
  | error
deriving DecidableEq, Repr

/-- A browser `File` object.  Object identity (JavaScript `===` on the
`File` reference, used by `handleFileUpload` to locate the entry to
update) is modelled by the `oid` field; `name` is `file.name`. -/
structure JsFile where
  oid : Nat
  name : String
deriving DecidableEq, Repr

/-- The `FileUpload` interface of `src/app/page.tsx`. -/
structure FileUpload where
  file : JsFile
  status : UploadStatus
  message : Option String
deriving DecidableEq, Repr

/-- The chat page's React state: `messages`, `inputMessage`, `isLoading`,
`sessionId` and `files` from `src/app/page.tsx` lines 41-45. -/
structure PageState where
  messages : List Message
  inputMessage : String
  isLoading : Bool
  sessionId : Option String
  files : List FileUpload
deriving DecidableEq, Repr

/-- The JSON body returned by `POST /query` as the chat page reads it:
`data.success`, `data.response`, `data.error`, `data.session_id`,
`data.intermediate_steps`.  Absent fields are `none`. -/
structure QueryResponse where
  success : Bool
  response : String
  error : Option String
  session_id : Option String
  intermediate_steps : List AgentStep
deriving DecidableEq, Repr

/-- Outcome of the `/query` round-trip inside `sendMessage`: either the
`fetch`/`json()` call throws, or a parsed body arrives. -/
inductive QueryOutcome where
  | fetchError
  | ok (data : QueryResponse)
deriving DecidableEq, Repr

/-- The request body `sendMessage` posts to `/query`:
`{ message, session_id }`. -/
structure QueryPayload where
  message : String
  session_id : Option String
deriving DecidableEq, Repr


/-- A JavaScript whitespace character, as `String.prototype.trim` strips
it: space, tab, line feed, carriage return, vertical tab, form feed and
no-break space. -/
def isJsWhitespace (c : Char) : Bool :=
  c = ' ' || c = '\t' || c = '\n' || c = '\r' ||
    c = '\x0b' || c = '\x0c' || c = '\u00a0'

/-- Drop leading JavaScript whitespace from a character list. -/
def dropLeadingWs : List Char → List Char
  | [] => []
  | c :: rest => if isJsWhitespace c then dropLeadingWs rest else c :: rest

/-- JavaScript `s.trim()`: strip whitespace from both ends.  (Lean core's
`String.trim` is extensionally the same on this whitespace set but is
defined by well-founded recursion; this executable form lets concrete
instances evaluate.) -/
def jsTrim (s : String) : String :=
  ⟨(dropLeadingWs (dropLeadingWs s.data).reverse).reverse⟩

/-- JavaScript `s.toUpperCase()` on the ASCII alphabet. -/
def jsToUpper (s : String) : String :=
  ⟨s.data.map Char.toUpper⟩

/-- JavaScript `s.toLowerCase()` on the ASCII alphabet. -/
def jsToLower (s : String) : String :=
  ⟨s.data.map Char.toLower⟩

/-- The fixed user-facing error text appended by `sendMessage`'s catch
block (`src/app/page.tsx` line 137). -/
def errorText : String := "Sorry, I encountered an error. Please try again."

/-- Handler `generateSessionId` (`src/app/page.tsx` lines 82-86): the freshly
minted random id is a parameter; the handler stores it and returns it. -/
def generateSessionId (id : String) (st : PageState) : PageState × String :=
  ({ st with sessionId := some id }, id)

/-- Handler `sendMessage` (`src/app/page.tsx` lines 88-145).  `now` stands for
`Date.now()`.  Returns the next page state together with the payload
posted to `/query`, or `none` when the early-return guard fired and no
request was issued.  JavaScript truthiness of `data.session_id` is a
non-`none`, non-empty string. -/
def sendMessage (st : PageState) (now : Nat) (outcome : QueryOutcome) :
    PageState × Option QueryPayload :=
  if (jsTrim st.inputMessage).isEmpty || st.isLoading then (st, none)
  else
    let userMessage : Message :=
      { id := toString now, content := st.inputMessage, role := .user,
        timestamp := now, intermediateSteps := none }
    let payload : QueryPayload :=
      { message := st.inputMessage, session_id := st.sessionId }
    let st1 : PageState :=
      { st with messages := st.messages ++ [userMessage],
                inputMessage := "", isLoading := true }
    match outcome with
    | .fetchError =>
        let errorMessage : Message :=
          { id := toString now ++ "_error", content := errorText,
            role := .assistant, timestamp := now, intermediateSteps := none }
        ({ st1 with messages := st1.messages ++ [errorMessage],
                    isLoading := false }, some payload)
    | .ok data =>
        if data.success then
          let assistantMessage : Message :=
            { id := toString now ++ "_ai", content := data.response,
              role := .assistant, timestamp := now,
              intermediateSteps := some data.intermediate_steps }
          let st2 : PageState :=
            { st1 with messages := st1.messages ++ [assistantMessage] }
          let st3 : PageState :=
            match data.session_id with
            | some sid =>
                if !sid.isEmpty && st.sessionId ≠ some sid then
                  { st2 with sessionId := some sid }
                else st2
            | none => st2
          ({ st3 with isLoading := false }, some payload)
        else
          let errorMessage : Message :=
            { id := toString now ++ "_error", content := errorText,
              role := .assistant, timestamp := now, intermediateSteps := none }
          ({ st1 with messages := st1.messages ++ [errorMessage],
                      isLoading := false }, some payload)

/-- Outcome of the `/upload` round-trip for one file: a thrown
`fetch`/`json()` error, or a parsed `{ success, message }` body. -/
inductive UploadOutcome where
  | fetchError
  | ok (success : Bool) (message : String)
deriving DecidableEq, Repr

/-- The body of `handleFileUpload`'s per-file loop
(`src/app/page.tsx` lines 157-201) for a single `file` with round-trip
outcome `outcome`; `now` stands for `Date.now()`. -/
def handleFileStep (st : PageState) (now : Nat) (file : JsFile)
    (outcome : UploadOutcome) : PageState :=
  let st1 : PageState :=
    { st with files := st.files ++ [{ file := file, status := .uploading,
                                      message := none }] }
  match outcome with
  | .fetchError =>
      { st1 with files := st1.files.map fun f =>
          if f.file.oid = file.oid then
            { f with status := .error, message := some "Upload failed" }
          else f }
  | .ok success msg =>
      let st2 : PageState :=
        { st1 with files := st1.files.map fun f =>
            if f.file.oid = file.oid then
              { f with status := if success then .completed else .error,
                       message := some msg }
            else f }
      if success then
        let uploadMessage : Message :=
          { id := toString now ++ "_upload",
            content := "📄 Uploaded and processed: **" ++ file.name
                         ++ "**\n" ++ msg,
            role := .assistant, timestamp := now, intermediateSteps := none }
        { st2 with messages := st2.messages ++ [uploadMessage] }
      else st2

/-- Handler `handleFileUpload` (`src/app/page.tsx` lines 154-202): the loop over
the selected files, each paired with its round-trip outcome. -/
def handleFileUpload (st : PageState) (now : Nat)
    (work : List (JsFile × UploadOutcome)) : PageState :=
  match work with
  | [] => st
  | (file, outcome) :: rest =>
      handleFileUpload (handleFileStep st now file outcome) now rest

/-- The `type` argument of `clearMemory`:
`'conversation' | 'semantic'`. -/
inductive ClearTarget where
  | conversation
  | semantic
deriving DecidableEq, Repr

/-- Outcome of the `/memory/clear` round-trip: a thrown error, or a
parsed `{ success, message }` body. -/
inductive ClearOutcome where
  | fetchError
  | ok (success : Bool) (message : String)
deriving DecidableEq, Repr

/-- Handler `clearMemory` (`src/app/page.tsx` lines 204-230).  Returns the next
page state and whether a request was issued (the handler returns
immediately, issuing nothing, when `sessionId` is null). -/
def clearMemory (target : ClearTarget) (st : PageState)
    (outcome : ClearOutcome) : PageState × Bool :=
  match st.sessionId with
  | none => (st, false)
  | some _ =>
      match outcome with
      | .fetchError => (st, true)
      | .ok success _ =>
          if success then
            match target with
            | .conversation => ({ st with messages := [] }, true)
            | .semantic => (st, true)
          else (st, true)

/-! ## Restricted Execution Sandbox (spec-modelled) -/

/-- The four-way Sandbox Verdict of spec §3: exactly one variant holds. -/
inductive Verdict where
  | Allowed (output : String)
  | Denied (reason : String)
  | Faulted (message : String)
  | Exhausted
deriving DecidableEq, Repr

/-- Modelled from the spec: a parsed code submission as the static
admission check of §4.1 sees it — the modules it imports and the
identifiers it references.  The backend sandbox source
(`backend/tools/python_repl_tool.py`) is not under `src/`; only the
backend README documents "blocked imports for dangerous modules" and
"AST parsing". -/
structure Submission where
  imports : List String
  identifiers : List String
deriving DecidableEq, Repr

/-- Modelled from the spec: the deny-list of process/OS/network/file/
reflection-introspection primitives (§4.1 phase 1). -/
def denyList : List String :=
  ["os", "sys", "subprocess", "socket", "shutil", "ctypes", "importlib",
   "inspect", "eval", "exec", "open", "__import__", "globals", "locals"]

/-- Modelled from the spec: the explicit allow-list of importable
modules (§4.1 phase 1). -/
def allowList : List String :=
  ["math", "random", "string", "itertools", "functools", "collections",
   "datetime", "json", "re", "statistics"]

/-- Modelled from the spec: the static admission check of §4.1, a pure
function of the (parsed) source text.  Returns `some reason` when the
submission must be rejected: a deny-listed import, an import outside the
allow-list, or a deny-listed identifier reference. -/
def staticCheck (s : Submission) : Option String :=
  match s.imports.find? (fun m => denyList.contains m) with
  | some m => some ("disallowed import: " ++ m)
  | none =>
      match s.imports.find? (fun m => !allowList.contains m) with
      | some m => some ("import outside allow-list: " ++ m)
      | none =>
          match s.identifiers.find? (fun x => denyList.contains x) with
          | some x => some ("disallowed identifier: " ++ x)
          | none => none

/-- Resource-allocation state of the sandbox host: the counter of
execution contexts ever allocated (spec §8 "verify via a
resource-allocation counter"). -/
structure SandboxState where
  allocCount : Nat
deriving DecidableEq, Repr

/-- Modelled from the spec: the two-phase execution of §4.1.  Phase 1 is
`staticCheck`; only when it admits the submission is an execution
context allocated and the isolated run performed (its verdict,
`Allowed`/`Faulted`/`Exhausted` depending on the code's behaviour under
the limits, enters as the `runResult` parameter).  Returns the verdict,
the host state, and whether the submission was executed. -/
def sandboxExecute (st : SandboxState) (s : Submission)
    (runResult : Verdict) : Verdict × SandboxState × Bool :=
  match staticCheck s with
  | some reason => (.Denied reason, st, false)
  | none => (runResult, { st with allocCount := st.allocCount + 1 }, true)

/-! ## Compare page (`src/app/compare/page.tsx`) -/

/-- The `OttoScore` record as the compare page uses it; its defining
module `@/utils/types` is not under `src/`, so only the `ticker` field
(the one the page reads) is modelled. -/
structure OttoScore where
  ticker : String
deriving DecidableEq, Repr

/-- The compare page's React state: `compareStocks`, `searchTicker`,
`loading` (`src/app/compare/page.tsx` lines 16-18). -/
structure CompareState where
  compareStocks : List OttoScore
  searchTicker : String
  loading : Bool
deriving DecidableEq, Repr

/-- Handler `handleAddStock` (`src/app/compare/page.tsx` lines 20-40).
`getScoreResult` is the outcome of `await ottoAPI.getScore(searchTicker)`:
`some stock` on success, `none` when it throws (the catch alerts and the
finally clears `loading`). -/
def handleAddStock (st : CompareState) (getScoreResult : Option OttoScore) :
    CompareState :=
  if (jsTrim st.searchTicker).isEmpty || st.compareStocks.length ≥ 3 then st
  else if st.compareStocks.any
      (fun stock => stock.ticker = jsToUpper st.searchTicker) then st
  else
    match getScoreResult with
    | some stock =>
        { st with compareStocks := st.compareStocks ++ [stock],
                  searchTicker := "", loading := false }
    | none => { st with loading := false }

/-- Handler `removeStock` (`src/app/compare/page.tsx` lines 42-44). -/
def removeStock (st : CompareState) (ticker : String) : CompareState :=
  { st with compareStocks :=
      st.compareStocks.filter fun stock => stock.ticker ≠ ticker }

/-! ## Calendar page (`src/unnamed/part_001`) -/

/-- The `CalendarStock` record as the calendar page's search reads it
(`ticker`, `companyName`); its defining module `@/utils/types` is not
under `src/`, so only those two fields are modelled. -/
structure CalendarStock where
  ticker : String
  companyName : String
deriving DecidableEq, Repr

/-- The calendar page's React state: `selectedStocks`, `searchTicker`,
`searchResults` (`src/unnamed/part_001` lines 15-17). -/
structure CalendarState where
  selectedStocks : List CalendarStock
  searchTicker : String
  searchResults : List CalendarStock
deriving DecidableEq, Repr

/-- JavaScript `hay.includes(needle)` on the character list level:
`needle` occurs as a contiguous segment of `hay`. -/
def segIn (needle : List Char) : List Char → Bool
  | [] => needle.isEmpty
  | c :: rest => needle.isPrefixOf (c :: rest) || segIn needle rest

/-- JavaScript `hay.includes(needle)` on strings. -/
def strIncludes (hay needle : String) : Bool :=
  segIn needle.data hay.data

/-- The predicate of `handleSearch`'s filter (`src/unnamed/part_001`
lines 22-25): the stock's ticker or company name, lower-cased, contains
the lower-cased query. -/
def matchesQuery (query : String) (stock : CalendarStock) : Bool :=
  strIncludes (jsToLower stock.ticker) (jsToLower query) ||
    strIncludes (jsToLower stock.companyName) (jsToLower query)

/-- Handler `handleSearch` (`src/unnamed/part_001` lines 19-30).  The list it
filters, `calendarStocks`, comes from `@/utils/mockData` which is not
under `src/`, so it enters as the `calendarStocks` parameter. -/
def handleSearch (calendarStocks : List CalendarStock)
    (st : CalendarState) : CalendarState :=
  if !(jsTrim st.searchTicker).isEmpty then
    { st with searchResults :=
        calendarStocks.filter fun stock => matchesQuery st.searchTicker stock }
  else { st with searchResults := [] }

/-- Handler `addStock` (`src/unnamed/part_001` lines 32-38). -/
def addStock (st : CalendarState) (stock : CalendarStock) : CalendarState :=
  if st.selectedStocks.length < 3 &&
      (st.selectedStocks.find? (fun s => s.ticker = stock.ticker)).isNone then
    { st with selectedStocks := st.selectedStocks ++ [stock],
              searchResults := [], searchTicker := "" }
  else st

/-! ## Helper lemmas -/

/-- Whenever `sendMessage` issues a request, the posted body's
`session_id` field is the state's current `sessionId`. -/
theorem sendMessage_payload_sessionId (st : PageState) (now : Nat)
    (outcome : QueryOutcome) (payload : QueryPayload)
    (h : (sendMessage st now outcome).2 = some payload) :
    payload.session_id = st.sessionId := by
  unfold sendMessage at h
  split at h
  · exact absurd h (by simp)
  · cases outcome with
    | fetchError => cases h; rfl
    | ok data =>
        simp only at h
        split at h <;> (cases h; rfl)

/-- The transcript after `sendMessage` is either unchanged (the guard
fired) or the old transcript followed by exactly two new turns. -/
theorem sendMessage_messages_shape (st : PageState) (now : Nat)
    (outcome : QueryOutcome) :
    (sendMessage st now outcome).1.messages = st.messages ∨
      ∃ u a, (sendMessage st now outcome).1.messages = st.messages ++ [u, a] := by
  unfold sendMessage
  split
  · exact Or.inl rfl
  · cases outcome with
    | fetchError => exact Or.inr ⟨_, _, List.append_assoc _ _ _⟩
    | ok data =>
        simp only
        split
        · rcases hd : data.session_id with _ | sid <;> simp only [hd]
          · exact Or.inr ⟨_, _, List.append_assoc _ _ _⟩
          · split
            · exact Or.inr ⟨_, _, List.append_assoc _ _ _⟩
            · exact Or.inr ⟨_, _, List.append_assoc _ _ _⟩
        · exact Or.inr ⟨_, _, List.append_assoc _ _ _⟩

/-- The transcript after one iteration of `handleFileUpload`'s loop is
either unchanged or the old transcript followed by one new turn. -/
theorem handleFileStep_messages_shape (st : PageState) (now : Nat)
    (file : JsFile) (outcome : UploadOutcome) :
    (handleFileStep st now file outcome).messages = st.messages ∨
      ∃ u, (handleFileStep st now file outcome).messages = st.messages ++ [u] := by
  unfold handleFileStep
  cases outcome with
  | fetchError => exact Or.inl rfl
  | ok success msg =>
      simp only
      split
      · exact Or.inr ⟨_, rfl⟩
      · exact Or.inl rfl

/-! ## Claim theorems -/

/-- C3: while `isLoading` is true, `sendMessage` returns without issuing
any request and without modifying any state, so a second in-flight
request for the session is impossible and turns are appended in request
order only. -/
theorem sendMessage_busy_noop (st : PageState) (now : Nat)
    (outcome : QueryOutcome) (h : st.isLoading = true) :
    sendMessage st now outcome = (st, none) := by
  unfold sendMessage
  simp [h]

theorem sendMessage_busy_noop_witness :
    sendMessage ⟨[], "hi", true, some "sess", []⟩ 7 .fetchError =
      (⟨[], "hi", true, some "sess", []⟩, none) :=
  sendMessage_busy_noop _ 7 .fetchError rfl

/-- C4: on a thrown round-trip or a `success = false` body, `sendMessage`
appends exactly one assistant turn whose content is the fixed text
`errorText` (the response's `error` field and the exception text never
reach the transcript — the resulting transcript is fully determined
without them), and `isLoading` is reset to false. -/
theorem sendMessage_failure_fixed_error (st : PageState) (now : Nat)
    (outcome : QueryOutcome)
    (hg1 : (jsTrim st.inputMessage).isEmpty = false) (hg2 : st.isLoading = false)
    (hfail : outcome = .fetchError ∨
      ∃ data, outcome = .ok data ∧ data.success = false) :
    (sendMessage st now outcome).1.messages =
        st.messages ++
          [{ id := toString now, content := st.inputMessage, role := .user,
             timestamp := now, intermediateSteps := none },
           { id := toString now ++ "_error", content := errorText,
             role := .assistant, timestamp := now,
             intermediateSteps := none }] ∧
      (sendMessage st now outcome).1.isLoading = false ∧
      errorText = "Sorry, I encountered an error. Please try again." := by
  rcases hfail with rfl | ⟨data, rfl, hdata⟩
  · unfold sendMessage
    simp [hg1, hg2, errorText]
  · unfold sendMessage
    simp [hg1, hg2, hdata, errorText]

theorem sendMessage_failure_fixed_error_witness :
    ((jsTrim "hi").isEmpty = false) ∧
      ((sendMessage ⟨[], "hi", false, some "s", []⟩ 3
          (.ok { success := false, response := "", error := some "secret",
                 session_id := none, intermediate_steps := [] })).1.messages =
        [] ++
          [{ id := toString 3, content := "hi", role := .user,
             timestamp := 3, intermediateSteps := none },
           { id := toString 3 ++ "_error", content := errorText,
             role := .assistant, timestamp := 3,
             intermediateSteps := none }] ∧
        (sendMessage ⟨[], "hi", false, some "s", []⟩ 3
          (.ok { success := false, response := "", error := some "secret",
                 session_id := none, intermediate_steps := [] })).1.isLoading
          = false ∧
        errorText = "Sorry, I encountered an error. Please try again.") :=
  ⟨by decide,
   sendMessage_failure_fixed_error ⟨[], "hi", false, some "s", []⟩ 3 _
     (by decide) rfl (Or.inr ⟨_, rfl, rfl⟩)⟩

/-- C7: `clearMemory 'conversation'` with a null session id issues no
request and changes nothing; with a non-null session id and a successful
response it empties the transcript immediately. -/
theorem clearMemory_conversation_spec (st : PageState)
    (outcome : ClearOutcome) :
    (st.sessionId = none → clearMemory .conversation st outcome = (st, false)) ∧
      ∀ sid msg, st.sessionId = some sid → outcome = .ok true msg →
        clearMemory .conversation st outcome =
          ({ st with messages := [] }, true) := by
  constructor
  · intro h
    simp [clearMemory, h]
  · rintro sid msg h rfl
    simp [clearMemory, h]

theorem clearMemory_conversation_spec_witness :
    clearMemory .conversation
        ⟨[{ id := "w", content := "old", role := .assistant, timestamp := 0,
            intermediateSteps := none }], "", false, some "s", []⟩
        (.ok true "cleared") =
      (⟨[], "", false, some "s", []⟩, true) :=
  (clearMemory_conversation_spec _ _).2 "s" "cleared" rfl rfl

/-- C8: a clear whose target is `semantic` leaves the whole page state —
in particular the conversational transcript `messages` — unchanged, for
every state and every backend outcome. -/
theorem clearMemory_semantic_frame (st : PageState) (outcome : ClearOutcome) :
    (clearMemory .semantic st outcome).1 = st ∧
      (clearMemory .semantic st outcome).1.messages = st.messages := by
  have h1 : (clearMemory .semantic st outcome).1 = st := by
    cases hs : st.sessionId with
    | none => simp [clearMemory, hs]
    | some sid =>
        cases outcome with
        | fetchError => simp [clearMemory, hs]
        | ok success msg =>
            simp only [clearMemory, hs]
            split <;> rfl
  exact ⟨h1, by rw [h1]⟩

/-- C1: a submission importing a deny-listed module is resolved to
`Denied` by the static admission check, is never executed, and allocates
no execution context (the allocation counter is unchanged). -/
theorem sandbox_denied_on_denylisted_import (st : SandboxState)
    (s : Submission) (runResult : Verdict) (m : String)
    (hm : m ∈ s.imports) (hd : m ∈ denyList) :
    ∃ reason, sandboxExecute st s runResult = (.Denied reason, st, false) := by
  unfold sandboxExecute staticCheck
  cases hfind : s.imports.find? (fun m => denyList.contains m) with
  | none =>
      have h := List.find?_eq_none.mp hfind m hm
      simp at h
      exact absurd hd h
  | some x => exact ⟨"disallowed import: " ++ x, by simp [hfind]⟩

theorem sandbox_denied_on_denylisted_import_witness :
    ("os" ∈ (Submission.mk ["os"] ["print"]).imports ∧ "os" ∈ denyList) ∧
      ∃ reason, sandboxExecute ⟨0⟩ ⟨["os"], ["print"]⟩ .Exhausted =
        (.Denied reason, ⟨0⟩, false) :=
  ⟨⟨by simp, by decide⟩,
   sandbox_denied_on_denylisted_import ⟨0⟩ ⟨["os"], ["print"]⟩ .Exhausted
     "os" (by simp) (by decide)⟩

/-- C2 counterexample: no cap bounds the chat page's transcript — for
every candidate cap there is a state from which `sendMessage` leaves more
than `cap` turns in `messages`, so the claimed FIFO-capped behaviour is
false of the code. -/
theorem messages_exceed_any_cap :
    ¬ ∃ cap : Nat, ∀ (st : PageState) (now : Nat) (outcome : QueryOutcome),
        (sendMessage st now outcome).1.messages.length ≤ cap := by
  rintro ⟨cap, h⟩
  have hx := h
    ⟨List.replicate (cap + 1)
        { id := "m", content := "c", role := .user, timestamp := 0,
          intermediateSteps := none }, "x", false, none, []⟩
    0 .fetchError
  simp [sendMessage, show (jsTrim "x").isEmpty = false from by decide] at hx
  omega

/-- C2 amended: the chat page enforces no turn cap and performs no
eviction: `sendMessage` either leaves the transcript unchanged (guard
fired) or retains every previously held turn in order and appends
exactly two new turns at the end. -/
theorem sendMessage_no_eviction (st : PageState) (now : Nat)
    (outcome : QueryOutcome) :
    List.IsPrefix st.messages (sendMessage st now outcome).1.messages ∧
      ((sendMessage st now outcome).1.messages = st.messages ∨
        (sendMessage st now outcome).1.messages.length =
          st.messages.length + 2) := by
  rcases sendMessage_messages_shape st now outcome with h | ⟨u, a, h⟩
  · exact ⟨⟨[], by simp [h]⟩, Or.inl h⟩
  · exact ⟨⟨[u, a], h.symm⟩, Or.inr (by simp [h])⟩

/-- C5: every transcript mutation of `sendMessage` and `handleFileUpload`
is a pure append: the previously held messages remain an initial segment
of the new list, unchanged in content and order. -/
theorem transcript_append_only (st : PageState) (now : Nat)
    (outcome : QueryOutcome) (work : List (JsFile × UploadOutcome)) :
    List.IsPrefix st.messages (sendMessage st now outcome).1.messages ∧
      List.IsPrefix st.messages (handleFileUpload st now work).messages := by
  constructor
  · rcases sendMessage_messages_shape st now outcome with h | ⟨u, a, h⟩
    · exact ⟨[], by simp [h]⟩
    · exact ⟨[u, a], h.symm⟩
  · induction work generalizing st with
    | nil => exact ⟨[], by simp [handleFileUpload]⟩
    | cons p rest ih =>
        obtain ⟨file, outcome'⟩ := p
        have h1 : List.IsPrefix st.messages
            (handleFileStep st now file outcome').messages := by
          rcases handleFileStep_messages_shape st now file outcome' with h | ⟨u, h⟩
          · exact ⟨[], by simp [h]⟩
          · exact ⟨[u], h.symm⟩
        have h2 := ih (handleFileStep st now file outcome')
        simp only [handleFileUpload]
        obtain ⟨t1, e1⟩ := h1
        obtain ⟨t2, e2⟩ := h2
        exact ⟨t1 ++ t2, by rw [← List.append_assoc, e1, e2]⟩

/-- C6: every issued query carries the state's current session
identifier, and a successful response bearing a different non-empty
resolved `session_id` makes the client adopt it, so any later request
from the resulting state carries the server-resolved identifier. -/
theorem sendMessage_session_adoption (st : PageState) (now : Nat)
    (data : QueryResponse) (sid : String)
    (hg1 : (jsTrim st.inputMessage).isEmpty = false)
    (hg2 : st.isLoading = false)
    (hsucc : data.success = true) (hsid : data.session_id = some sid)
    (hne : sid.isEmpty = false) (hdiff : st.sessionId ≠ some sid) :
    (sendMessage st now (.ok data)).2 =
        some { message := st.inputMessage, session_id := st.sessionId } ∧
      (sendMessage st now (.ok data)).1.sessionId = some sid ∧
      ∀ (now' : Nat) (outcome' : QueryOutcome) (payload' : QueryPayload),
        (sendMessage (sendMessage st now (.ok data)).1 now' outcome').2 =
            some payload' →
        payload'.session_id = some sid := by
  have h2 : (sendMessage st now (.ok data)).1.sessionId = some sid := by
    unfold sendMessage
    simp [hg1, hg2, hsucc, hsid, hne, hdiff]
  refine ⟨?_, h2, ?_⟩
  · unfold sendMessage
    simp [hg1, hg2, hsucc]
  · intro now' outcome' payload' hpay
    rw [sendMessage_payload_sessionId _ _ _ _ hpay, h2]

theorem sendMessage_session_adoption_witness :
    (sendMessage ⟨[], "hi", false, some "old", []⟩ 5
        (.ok ⟨true, "resp", none, some "srv", []⟩)).2 =
        some { message := "hi", session_id := some "old" } ∧
      (sendMessage ⟨[], "hi", false, some "old", []⟩ 5
        (.ok ⟨true, "resp", none, some "srv", []⟩)).1.sessionId = some "srv" :=
  ⟨(sendMessage_session_adoption ⟨[], "hi", false, some "old", []⟩ 5
      ⟨true, "resp", none, some "srv", []⟩ "srv" (by decide) rfl rfl rfl
      (by decide) (by decide)).1,
   (sendMessage_session_adoption ⟨[], "hi", false, some "old", []⟩ 5
      ⟨true, "resp", none, some "srv", []⟩ "srv" (by decide) rfl rfl rfl
      (by decide) (by decide)).2.1⟩

/-- Characterisation of `List.isPrefixOf` as an explicit decomposition. -/
theorem isPrefixOf_iff_exists (n : List Char) : ∀ h : List Char,
    n.isPrefixOf h = true ↔ ∃ q, h = n ++ q := by
  induction n with
  | nil => intro h; simp [List.isPrefixOf]
  | cons a as ih =>
      intro h
      cases h with
      | nil => simp [List.isPrefixOf]
      | cons b bs =>
          simp only [List.isPrefixOf, Bool.and_eq_true, beq_iff_eq, ih]
          constructor
          · rintro ⟨rfl, q, rfl⟩
            exact ⟨q, rfl⟩
          · rintro ⟨q, hq⟩
            injection hq with h1 h2
            exact ⟨h1.symm, q, h2⟩

/-- Correctness of `segIn`: it finds exactly the contiguous-segment occurrences. -/
theorem segIn_iff (n : List Char) : ∀ h : List Char,
    segIn n h = true ↔ ∃ p q, h = p ++ n ++ q := by
  intro h
  induction h with
  | nil =>
      simp only [segIn, List.isEmpty_iff]
      constructor
      · rintro rfl
        exact ⟨[], [], rfl⟩
      · rintro ⟨p, q, hpq⟩
        rcases List.append_eq_nil.mp hpq.symm with ⟨hpn, -⟩
        exact (List.append_eq_nil.mp hpn).2
  | cons c rest ih =>
      simp only [segIn, Bool.or_eq_true, ih, isPrefixOf_iff_exists]
      constructor
      · rintro (⟨q, hq⟩ | ⟨p, q, rfl⟩)
        · exact ⟨[], q, hq⟩
        · exact ⟨c :: p, q, rfl⟩
      · rintro ⟨p, q, hpq⟩
        cases p with
        | nil => exact Or.inl ⟨q, by simpa using hpq⟩
        | cons x xs =>
            injection hpq with h1 h2
            exact Or.inr ⟨xs, q, h2⟩

/-- The claim-side reading of the calendar search predicate: `hay`
contains `needle` case-insensitively, as an explicit substring
decomposition after lower-casing. -/
def containsCI (hay needle : String) : Prop :=
  ∃ p q, (jsToLower hay).data = p ++ (jsToLower needle).data ++ q

/-- The boolean filter of `handleSearch` decides exactly the
case-insensitive-containment reading. -/
theorem matchesQuery_iff (q : String) (stock : CalendarStock) :
    matchesQuery q stock = true ↔
      (containsCI stock.ticker q ∨ containsCI stock.companyName q) := by
  unfold matchesQuery containsCI strIncludes
  simp [Bool.or_eq_true, segIn_iff]

/-- C9: the compare page keeps at most 3 stocks and no duplicate tickers
(assuming `getScore(t)` resolves to a stock whose ticker is `t`
upper-cased); `handleAddStock` is a no-op on a full list, a blank input
or an already-present ticker, and `removeStock` only removes entries. -/
theorem compare_page_invariants (st : CompareState) (res : Option OttoScore)
    (hlen : st.compareStocks.length ≤ 3)
    (hnodup : (st.compareStocks.map OttoScore.ticker).Nodup)
    (hres : ∀ stock, res = some stock →
      stock.ticker = jsToUpper st.searchTicker) :
    ((handleAddStock st res).compareStocks.length ≤ 3 ∧
        ((handleAddStock st res).compareStocks.map OttoScore.ticker).Nodup) ∧
      (st.compareStocks.length ≥ 3 → handleAddStock st res = st) ∧
      ((jsTrim st.searchTicker).isEmpty = true → handleAddStock st res = st) ∧
      (st.compareStocks.any
          (fun stock => stock.ticker = jsToUpper st.searchTicker) = true →
        handleAddStock st res = st) ∧
      ∀ t, List.Sublist (removeStock st t).compareStocks st.compareStocks := by
  refine ⟨?_, ?_, ?_, ?_, ?_⟩
  · unfold handleAddStock
    split
    · exact ⟨hlen, hnodup⟩
    · split
      · exact ⟨hlen, hnodup⟩
      · rename_i hguard hany
        cases res with
        | none => exact ⟨hlen, hnodup⟩
        | some stock =>
            have ht : stock.ticker = jsToUpper st.searchTicker :=
              hres stock rfl
            have hlt : st.compareStocks.length < 3 := by
              simp only [Bool.or_eq_true, decide_eq_true_eq, not_or] at hguard
              omega
            constructor
            · simp only [List.length_append, List.length_singleton]
              omega
            · have hnotmem : jsToUpper st.searchTicker ∉
                  st.compareStocks.map OttoScore.ticker := by
                intro hmem
                rw [List.mem_map] at hmem
                obtain ⟨s, hs, hts⟩ := hmem
                exact hany (List.any_eq_true.mpr ⟨s, hs, by simp [hts]⟩)
              rw [List.map_append]
              simp only [List.map_cons, List.map_nil]
              rw [List.nodup_append]
              refine ⟨hnodup, List.nodup_singleton _, ?_⟩
              intro x hx hx2
              rw [List.mem_singleton] at hx2
              subst hx2
              rw [ht] at hx
              exact hnotmem hx
  · intro h
    unfold handleAddStock
    have : decide (st.compareStocks.length ≥ 3) = true := by simpa using h
    simp [this]
  · intro h
    simp [handleAddStock, h]
  · intro h
    unfold handleAddStock
    split
    · rfl
    · simp [h]
  · intro t
    exact List.filter_sublist _

theorem compare_page_invariants_witness :
    (handleAddStock ⟨[⟨"AAPL"⟩], "msft", true⟩
          (some ⟨"MSFT"⟩)).compareStocks.length ≤ 3 ∧
      ((handleAddStock ⟨[⟨"AAPL"⟩], "msft", true⟩
          (some ⟨"MSFT"⟩)).compareStocks.map OttoScore.ticker).Nodup :=
  (compare_page_invariants ⟨[⟨"AAPL"⟩], "msft", true⟩ (some ⟨"MSFT"⟩)
    (by decide) (by decide) (by intro stock h; injection h with h2; cases h2; decide)).1

/-- C10: with a non-blank query, `handleSearch` sets the results to
exactly the entries of `calendarStocks` whose ticker or company name
contains the query case-insensitively; with a blank query it sets them
to the empty list; it never touches `selectedStocks`. -/
theorem handleSearch_correct (calendarStocks : List CalendarStock)
    (st : CalendarState) :
    ((jsTrim st.searchTicker).isEmpty = false →
        (handleSearch calendarStocks st).searchResults =
          calendarStocks.filter
            (fun stock => matchesQuery st.searchTicker stock) ∧
        ∀ stock, stock ∈ (handleSearch calendarStocks st).searchResults ↔
          stock ∈ calendarStocks ∧
            (containsCI stock.ticker st.searchTicker ∨
              containsCI stock.companyName st.searchTicker)) ∧
      ((jsTrim st.searchTicker).isEmpty = true →
        (handleSearch calendarStocks st).searchResults = []) ∧
      (handleSearch calendarStocks st).selectedStocks = st.selectedStocks := by
  refine ⟨?_, ?_, ?_⟩
  · intro h
    constructor
    · simp [handleSearch, h]
    · intro stock
      simp [handleSearch, h, List.mem_filter, matchesQuery_iff]
  · intro h
    simp [handleSearch, h]
  · unfold handleSearch
    split <;> rfl

theorem handleSearch_correct_witness :
    (handleSearch [⟨"AAPL", "Apple Inc"⟩, ⟨"MSFT", "Microsoft"⟩]
        ⟨[], "app", []⟩).searchResults =
      List.filter (fun stock => matchesQuery "app" stock)
        [⟨"AAPL", "Apple Inc"⟩, ⟨"MSFT", "Microsoft"⟩] ∧
    (handleSearch [⟨"AAPL", "Apple Inc"⟩, ⟨"MSFT", "Microsoft"⟩]
        ⟨[], "app", []⟩).searchResults = [⟨"AAPL", "Apple Inc"⟩] :=
  ⟨((handleSearch_correct [⟨"AAPL", "Apple Inc"⟩, ⟨"MSFT", "Microsoft"⟩]
      ⟨[], "app", []⟩).1 (by decide)).1, by decide⟩
